import Mathlib

/-!
A shallow embedding of `src/scripts/bin/println.cpp`:

```cpp
int main(){
  std::cout.setf(std::ios::unitbuf);
  while(true){
    std::cout << "." << std::endl; // println
    std::this_thread::sleep_for(std::chrono::microseconds(100));
  }
}
```

The output stream is modelled with an internal buffer and the bytes already
flushed (visible to a downstream reader); `unitbuf` makes every insertion
flush, and `std::endl` inserts a newline and then flushes unconditionally.
The program is a three-phase step machine: the one-off `setf` call, then the
loop body's write statement and its sleep statement, repeated forever.  A
step yields `none` exactly when `main` would return; the `while(true)` loop
has no exit, so that case never arises.
-/

namespace Println

/-- Model of a C++ `std::ostream`: the not-yet-flushed `buffer`, the
`flushed` bytes a downstream reader can already see, and the
`std::ios::unitbuf` format flag. -/
structure OStream where
  buffer : List Char
  flushed : List Char
  unitbuf : Bool
deriving Repr, DecidableEq

/-- `std::ostream::flush`: move the buffered bytes to the visible output. -/
def OStream.flush (s : OStream) : OStream :=
  { s with flushed := s.flushed ++ s.buffer, buffer := [] }

/-- One insertion (`operator<<`) of raw bytes: append to the buffer and, if
`unitbuf` is set, flush immediately after the insertion. -/
def OStream.insert (s : OStream) (cs : List Char) : OStream :=
  let s1 : OStream := { s with buffer := s.buffer ++ cs }
  if s1.unitbuf then s1.flush else s1

/-- `std::cout.setf(std::ios::unitbuf)`: set the auto-flush flag. -/
def OStream.setUnitbuf (s : OStream) : OStream :=
  { s with unitbuf := true }

/-- `<< std::endl`: insert a newline, then flush unconditionally. -/
def OStream.putEndl (s : OStream) : OStream :=
  (s.insert ['\n']).flush

/-- The three program points of `main`: before `setf`, at the write
statement, and at the sleep statement. -/
inductive Phase where
  | atSetf : Phase
  | atWrite : Phase
  | atSleep : Phase
deriving Repr, DecidableEq

/-- Program state: current program point, the `std::cout` stream, the
sleeps performed so far (durations in microseconds, in order), the number
of completed loop iterations, and how many times `setf` was executed. -/
structure State where
  phase : Phase
  cout : OStream
  sleeps : List Nat
  iters : Nat
  setfCalls : Nat
deriving Repr, DecidableEq

/-- State at process start: empty stream, `unitbuf` not yet set. -/
def initState : State :=
  { phase := Phase.atSetf
    cout := { buffer := [], flushed := [], unitbuf := false }
    sleeps := []
    iters := 0
    setfCalls := 0 }

/-- One statement of `main`.  `none` would mean `main` returns; since
`while(true)` has no break, no branch produces it. -/
def step (s : State) : Option State :=
  match s.phase with
  | Phase.atSetf =>
      some { s with cout := s.cout.setUnitbuf
                    setfCalls := s.setfCalls + 1
                    phase := Phase.atWrite }
  | Phase.atWrite =>
      some { s with cout := (s.cout.insert ['.']).putEndl
                    phase := Phase.atSleep }
  | Phase.atSleep =>
      some { s with sleeps := s.sleeps ++ [100]
                    iters := s.iters + 1
                    phase := Phase.atWrite }

/-- Total version of `step` (identity on a returned state, which never
occurs; used to state reachability conveniently). -/
def stepT (s : State) : State :=
  (step s).getD s

/-- The partial run: `none` once `main` has returned within `n` steps. -/
def runN : Nat → Option State
  | 0 => some initState
  | n + 1 => (runN n).bind step

/-- The state reached after `n` statements. -/
def run : Nat → State
  | 0 => initState
  | n + 1 => stepT (run n)

/-- The bytes on standard output after `m` complete write statements:
`m` copies of ".\n". -/
def emitted (m : Nat) : List Char :=
  (List.replicate m ['.', '\n']).flatten

/-- Split a byte sequence at newlines; the accumulator holds the current
line reversed. -/
def lineSplit : List Char → List Char → List (List Char)
  | acc, [] => [acc.reverse]
  | acc, c :: rest =>
      if c = '\n' then acc.reverse :: lineSplit [] rest
      else lineSplit (c :: acc) rest

/-- The newline-terminated lines of a byte sequence (an unterminated tail
is not a completed line). -/
def completedLines (cs : List Char) : List (List Char) :=
  (lineSplit [] cs).dropLast

theorem emitted_zero : emitted 0 = [] := rfl

theorem emitted_succ (m : Nat) : emitted (m + 1) = emitted m ++ ['.', '\n'] := by
  simp [emitted, List.replicate_succ', List.flatten_append]

theorem emitted_cons (m : Nat) : emitted (m + 1) = '.' :: '\n' :: emitted m := by
  simp [emitted, List.replicate_succ]

theorem emitted_length (m : Nat) : (emitted m).length = 2 * m := by
  induction m with
  | zero => rfl
  | succ k ih => simp [emitted_succ, ih]; omega

theorem lineSplit_emitted (m : Nat) :
    lineSplit [] (emitted m) = List.replicate m ['.'] ++ [[]] := by
  induction m with
  | zero => rfl
  | succ k ih =>
      rw [emitted_cons]
      simp [lineSplit, List.replicate_succ, ih]

theorem completedLines_emitted (m : Nat) :
    completedLines (emitted m) = List.replicate m ['.'] := by
  rw [completedLines, lineSplit_emitted]
  exact List.dropLast_concat

/-- Closed form of `run`: after the `setf` statement and `j` loop
statements, `(j+1)/2` writes and `j/2` sleeps have happened. -/
def specState : Nat → State
  | 0 => initState
  | n + 1 =>
      { phase := if n % 2 = 0 then Phase.atWrite else Phase.atSleep
        cout := { buffer := [], flushed := emitted ((n + 1) / 2), unitbuf := true }
        sleeps := List.replicate (n / 2) 100
        iters := n / 2
        setfCalls := 1 }

theorem write_unitbuf (E : List Char) :
    OStream.putEndl (OStream.insert ⟨[], E, true⟩ ['.']) = ⟨[], E ++ ['.', '\n'], true⟩ := by
  simp [OStream.insert, OStream.putEndl, OStream.flush]

theorem run_eq_spec (n : Nat) : run n = specState n := by
  induction n with
  | zero => rfl
  | succ m ih =>
      rw [run, ih]
      match m with
      | 0 => rfl
      | k + 1 =>
          rcases Nat.mod_two_eq_zero_or_one k with h | h
          · obtain ⟨j, hj⟩ : ∃ j, k = 2 * j := ⟨k / 2, by omega⟩
            subst hj
            have h1 : (2 * j + 1) / 2 = j := by omega
            have h2 : (2 * j + 1) % 2 = 1 := by omega
            have h3 : (2 * j + 2) / 2 = j + 1 := by omega
            simp [specState, stepT, step, h1, h2, h3, write_unitbuf,
              emitted_succ, Nat.mul_mod_right]
          · obtain ⟨j, hj⟩ : ∃ j, k = 2 * j + 1 := ⟨k / 2, by omega⟩
            subst hj
            have h1 : (2 * j + 1 + 1) / 2 = j + 1 := by omega
            have h2 : (2 * j + 1) % 2 = 1 := by omega
            have h3 : (2 * j + 1 + 1) % 2 = 0 := by omega
            have h4 : (2 * j + 1 + 2) / 2 = j + 1 := by omega
            have h5 : (2 * j + 1) / 2 = j := by omega
            simp [specState, stepT, step, h1, h2, h3, h4, h5,
              List.replicate_succ']

theorem step_some (s : State) : ∃ t, step s = some t := by
  cases s with
  | mk phase cout sleeps iters setfCalls => cases phase <;> exact ⟨_, rfl⟩

theorem runN_eq_run (n : Nat) : runN n = some (run n) := by
  induction n with
  | zero => rfl
  | succ m ih =>
      obtain ⟨t, ht⟩ := step_some (run m)
      simp [runN, ih, run, stepT, ht]

/-- The process input a platform could hand to `main`: command-line
arguments and environment variables.  `int main()` declares no parameters
and the body reads neither. -/
structure ProcessInput where
  args : List (List Char)
  env : List (List Char × List Char)
deriving Repr, DecidableEq

/-- The run of the program as launched with a given process input.  The
source's `main` takes no arguments and calls no accessor of the
environment, so the input is never consulted. -/
def runWithInput (_input : ProcessInput) (n : Nat) : State :=
  run n

/-- State of the same program over a platform that may reject writes
(e.g., a broken pipe): `delivered` holds the bytes the platform accepted,
`failedWrites` counts rejected write statements, `writes` counts write
statements attempted. -/
structure StateFx where
  phase : Phase
  delivered : List Char
  failedWrites : Nat
  sleeps : List Nat
  iters : Nat
  writes : Nat
deriving Repr, DecidableEq

def initStateFx : StateFx :=
  { phase := Phase.atSetf
    delivered := []
    failedWrites := 0
    sleeps := []
    iters := 0
    writes := 0 }

/-- One statement of `main` when the platform decides, via `ok`, whether
each write statement succeeds.  The source never inspects the stream state
(`cout.fail()`, `errno`, ...), so both outcomes of a write continue with
the very same statements: sleep, then repeat. -/
def stepFx (ok : Nat → Bool) (s : StateFx) : Option StateFx :=
  match s.phase with
  | Phase.atSetf =>
      some { s with phase := Phase.atWrite }
  | Phase.atWrite =>
      if ok s.writes then
        some { s with delivered := s.delivered ++ ['.', '\n']
                      writes := s.writes + 1
                      phase := Phase.atSleep }
      else
        some { s with failedWrites := s.failedWrites + 1
                      writes := s.writes + 1
                      phase := Phase.atSleep }
  | Phase.atSleep =>
      some { s with sleeps := s.sleeps ++ [100]
                    iters := s.iters + 1
                    phase := Phase.atWrite }

def runFx (ok : Nat → Bool) : Nat → StateFx
  | 0 => initStateFx
  | n + 1 => (stepFx ok (runFx ok n)).getD (runFx ok n)

theorem stepFx_some (ok : Nat → Bool) (s : StateFx) : (stepFx ok s).isSome = true := by
  cases s with
  | mk phase delivered failedWrites sleeps iters writes =>
      cases phase
      · rfl
      · by_cases h : ok writes = true <;> simp [stepFx, h]
      · rfl

theorem runFx_ctrl (ok : Nat → Bool) (n : Nat) :
    (runFx ok n).phase = (run n).phase ∧ (runFx ok n).sleeps = (run n).sleeps ∧
    (runFx ok n).iters = (run n).iters := by
  induction n with
  | zero => exact ⟨rfl, rfl, rfl⟩
  | succ m ih =>
      obtain ⟨h1, h2, h3⟩ := ih
      rw [runFx, run]
      cases hp : (run m).phase
      · rw [hp] at h1
        simp [stepFx, stepT, step, h1, hp, h2, h3]
      · rw [hp] at h1
        simp only [stepFx, stepT, step, h1, hp]
        split <;> simp [h2, h3]
      · rw [hp] at h1
        simp [stepFx, stepT, step, h1, hp, h2, h3]

/-- The program with the `std::cout.setf(std::ios::unitbuf)` statement
removed: the first statement does nothing, the loop body is unchanged. -/
def stepNoCfg (s : State) : Option State :=
  match s.phase with
  | Phase.atSetf =>
      some { s with phase := Phase.atWrite }
  | Phase.atWrite =>
      some { s with cout := (s.cout.insert ['.']).putEndl
                    phase := Phase.atSleep }
  | Phase.atSleep =>
      some { s with sleeps := s.sleeps ++ [100]
                    iters := s.iters + 1
                    phase := Phase.atWrite }

def runNoCfg : Nat → State
  | 0 => initState
  | n + 1 => (stepNoCfg (runNoCfg n)).getD (runNoCfg n)

/-- Closed form of `runNoCfg`: identical to `specState` apart from the
stream flag and the `setf` count. -/
def specStateNoCfg : Nat → State
  | 0 => initState
  | n + 1 =>
      { phase := if n % 2 = 0 then Phase.atWrite else Phase.atSleep
        cout := { buffer := [], flushed := emitted ((n + 1) / 2), unitbuf := false }
        sleeps := List.replicate (n / 2) 100
        iters := n / 2
        setfCalls := 0 }

theorem write_nobuf (E : List Char) :
    OStream.putEndl (OStream.insert ⟨[], E, false⟩ ['.']) = ⟨[], E ++ ['.', '\n'], false⟩ := by
  simp [OStream.insert, OStream.putEndl, OStream.flush]

theorem runNoCfg_eq_spec (n : Nat) : runNoCfg n = specStateNoCfg n := by
  induction n with
  | zero => rfl
  | succ m ih =>
      rw [runNoCfg, ih]
      match m with
      | 0 => rfl
      | k + 1 =>
          rcases Nat.mod_two_eq_zero_or_one k with h | h
          · obtain ⟨j, hj⟩ : ∃ j, k = 2 * j := ⟨k / 2, by omega⟩
            subst hj
            have h1 : (2 * j + 1) / 2 = j := by omega
            have h2 : (2 * j + 1) % 2 = 1 := by omega
            have h3 : (2 * j + 2) / 2 = j + 1 := by omega
            simp [specStateNoCfg, stepNoCfg, h1, h2, h3, write_nobuf,
              emitted_succ, Nat.mul_mod_right]
          · obtain ⟨j, hj⟩ : ∃ j, k = 2 * j + 1 := ⟨k / 2, by omega⟩
            subst hj
            have h1 : (2 * j + 1 + 1) / 2 = j + 1 := by omega
            have h2 : (2 * j + 1) % 2 = 1 := by omega
            have h3 : (2 * j + 1 + 1) % 2 = 0 := by omega
            have h4 : (2 * j + 1 + 2) / 2 = j + 1 := by omega
            have h5 : (2 * j + 1) / 2 = j := by omega
            simp [specStateNoCfg, stepNoCfg, h1, h2, h3, h4, h5,
              List.replicate_succ']

/-- Claim C1: every line the program has flushed to standard output is the
literal `.` followed by exactly one line terminator, and the flushed
content is nothing but such lines, at every reachable state. -/
theorem c1_format_invariance (n : Nat) :
    ∃ m, (run n).cout.flushed = emitted m ∧
      completedLines (run n).cout.flushed = List.replicate m ['.'] := by
  rw [run_eq_spec]
  match n with
  | 0 => exact ⟨0, rfl, rfl⟩
  | k + 1 => exact ⟨(k + 1) / 2, rfl, completedLines_emitted _⟩

/-- Claim C2: the program never terminates on its own: the run is defined
after every number of steps, and from every reachable state the next
statement is again taken (never a return). -/
theorem c2_nontermination (n : Nat) :
    runN n = some (run n) ∧ step (run n) ≠ none := by
  refine ⟨runN_eq_run n, ?_⟩
  obtain ⟨t, ht⟩ := step_some (run n)
  simp [ht]

/-- Claim C3: at every reachable statement boundary the stream buffer is
empty: each write is flushed within the write statement itself, before the
sleep of the same iteration, so unflushed output never survives across an
iteration boundary. -/
theorem c3_always_flushed (n : Nat) : (run n).cout.buffer = [] := by
  rw [run_eq_spec]
  match n with
  | 0 => rfl
  | k + 1 => rfl

/-- Claim C4: every completed iteration performed exactly one sleep of
exactly 100 microseconds: the recorded sleeps are one 100-microsecond
entry per completed iteration. -/
theorem c4_sleep_duration (n : Nat) :
    (run n).sleeps = List.replicate (run n).iters 100 := by
  rw [run_eq_spec]
  match n with
  | 0 => rfl
  | k + 1 => rfl

/-- Claim C5: the auto-flush configuration happens exactly once, at the
very first statement — before anything is written — and no later statement
touches it again: the `setf` count is 0 at start and stays 1 forever after,
the flag stays set, and right after the configuring statement nothing has
been flushed yet. -/
theorem c5_config_once (n : Nat) :
    (run n).setfCalls = min n 1 ∧ (run n).cout.unitbuf = decide (1 ≤ n) ∧
    (run 1).setfCalls = 1 ∧ (run 1).cout.flushed = [] := by
  refine ⟨?_, ?_, rfl, rfl⟩ <;>
    · rw [run_eq_spec]
      match n with
      | 0 => rfl
      | k + 1 => simp [specState]

/-- Claim C6: the writes stay ahead of the sleeps: at every reachable
state at least as many lines have been emitted as sleeps performed (so once
one full sleep period has elapsed the line count is nonzero), and after the
first write statement one line is already out while no sleep has
happened. -/
theorem c6_liveness (n : Nat) :
    (run n).sleeps.length ≤ (completedLines (run n).cout.flushed).length ∧
    (completedLines (run 2).cout.flushed).length = 1 ∧ (run 2).sleeps = [] := by
  refine ⟨?_, rfl, rfl⟩
  rw [run_eq_spec]
  match n with
  | 0 => exact Nat.le_refl 0
  | k + 1 =>
      simp [specState, completedLines_emitted]
      omega

/-- Claim C7: the program consumes no arguments and reads no environment,
so the reached state after any number of steps is identical for any two
process inputs. -/
theorem c7_input_independence (i j : ProcessInput) (n : Nat) :
    runWithInput i n = runWithInput j n := rfl

/-- Claim C8: the program performs no detection of write failures: under
any two platform write-outcome oracles the control state (program point,
sleeps, iteration count) is identical — a failed write still proceeds to
the sleep and repeats — and no write outcome makes the program stop. -/
theorem c8_no_failure_detection (ok1 ok2 : Nat → Bool) (n : Nat) :
    (runFx ok1 n).phase = (runFx ok2 n).phase ∧
    (runFx ok1 n).sleeps = (runFx ok2 n).sleeps ∧
    (runFx ok1 n).iters = (runFx ok2 n).iters ∧
    stepFx ok1 (runFx ok1 n) ≠ none := by
  obtain ⟨a1, a2, a3⟩ := runFx_ctrl ok1 n
  obtain ⟨b1, b2, b3⟩ := runFx_ctrl ok2 n
  refine ⟨a1.trans b1.symm, a2.trans b2.symm, a3.trans b3.symm, ?_⟩
  exact Option.ne_none_iff_isSome.mpr (stepFx_some ok1 (runFx ok1 n))

/-- Claim C9: after exactly `m` completed loop iterations the cumulative
flushed output is exactly `m` copies of ".\n", of length `2 * m`. -/
theorem c9_cumulative_output (m : Nat) :
    (run (2 * m + 1)).iters = m ∧
    (run (2 * m + 1)).cout.flushed = emitted m ∧
    ((run (2 * m + 1)).cout.flushed).length = 2 * m := by
  rw [run_eq_spec]
  have h1 : 2 * m / 2 = m := by omega
  have h2 : (2 * m + 1) / 2 = m := by omega
  refine ⟨?_, ?_, ?_⟩ <;> simp [specState, h1, h2, emitted_length]

/-- Claim C10: the `unitbuf` configuration is redundant for visibility:
with the configuration statement removed, the flushed output (and the
remaining buffer) agree with the original at every reachable state,
because `std::endl` already flushes every line. -/
theorem c10_unitbuf_redundant (n : Nat) :
    (runNoCfg n).cout.flushed = (run n).cout.flushed ∧
    (runNoCfg n).cout.buffer = (run n).cout.buffer := by
  rw [run_eq_spec, runNoCfg_eq_spec]
  match n with
  | 0 => exact ⟨rfl, rfl⟩
  | k + 1 => exact ⟨rfl, rfl⟩

end Println
